import Mathlib

/-!
Shallow embedding of the visibility-perception scheduler of
`Engine/Source/Runtime/AIModule/Classes/Perception/AISense_Sight.h`
(Unreal Engine 4.11 fork).

Modelling conventions:
* `float`/`double` values are modelled as exact rationals (`ℚ`);
* actor pointers and `FName`/`FPerceptionListenerID` identities are modelled
  as natural-number entity ids;
* `TWeakObjectPtr` is modelled as `Option AActor` (`none` = destroyed actor);
* the `TMap` containers are modelled as association lists, the `TArray`
  query queue as a `List`.

Only the class header (with a handful of inline member functions) is part of
the inspected source; the bodies of `Update`, `RegisterTarget`,
`GenerateQueriesForListener`, the removal helpers and `CalcQueryImportance`
are not.  Those are modelled from the specification; each such definition
carries a doc comment starting with `Modelled from the spec:`.
-/

/-- A 3-component vector (`FVector`), with exact rational components. -/
structure FVector where
  x : ℚ
  y : ℚ
  z : ℚ
deriving DecidableEq

/-- The zero vector (`FVector::ZeroVector`). -/
def FVector.ZeroVector : FVector := ⟨0, 0, 0⟩

/-- Value of `FLT_MAX`, the component of the invalid-location sentinel. -/
def fltMax : ℚ := 340282346638528859811704183484516925440

namespace FAISystem

/-- The `FAISystem::InvalidLocation` sentinel (`FVector(FLT_MAX)`). -/
def InvalidLocation : FVector := ⟨fltMax, fltMax, fltMax⟩

end FAISystem

/-- Squared euclidean distance between two vectors. -/
def distSq (a b : FVector) : ℚ :=
  (a.x - b.x) ^ 2 + (a.y - b.y) ^ 2 + (a.z - b.z) ^ 2

/-- `ESightPerceptionEventName::Type` from the header. -/
inductive ESightPerceptionEventName where
  | Undefined
  | GainedSight
  | LostSight
deriving DecidableEq

/-- An actor, reduced to the data the sense reads from it: a stable id, a
world location and a team id. -/
structure AActor where
  id : Nat
  team : Nat
  location : FVector
deriving DecidableEq

/-- `FAISightEvent`: one sight transition.  Actor pointers are modelled by
entity ids. -/
structure FAISightEvent where
  Age : ℚ
  EventType : ESightPerceptionEventName
  SeenActor : Nat
  Observer : Nat
deriving DecidableEq

/-- The `FAISightEvent(InSeenActor, InObserver, InEventType)` constructor:
it always sets `Age` to `0` (header line 42). -/
def FAISightEvent.create (seenActor observer : Nat)
    (eventType : ESightPerceptionEventName) : FAISightEvent :=
  ⟨0, eventType, seenActor, observer⟩

/-- `FAISightTarget`: a registered target.  `Target` models the
`TWeakObjectPtr<AActor>` (`none` when the actor has been destroyed). -/
structure FAISightTarget where
  Target : Option AActor
  TeamId : Nat
  TargetId : Nat
deriving DecidableEq

/-- `FAISightTarget::GetLocationSimple`:
`Target.IsValid() ? Target->GetActorLocation() : FVector::ZeroVector`
(header lines 59-62). -/
def FAISightTarget.GetLocationSimple (t : FAISightTarget) : FVector :=
  match t.Target with
  | some a => a.location
  | none => FVector.ZeroVector

/-- `FAISightQuery`: one scheduled (observer, target) visibility check. -/
structure FAISightQuery where
  ObserverId : Nat
  TargetId : Nat
  Age : ℚ
  Score : ℚ
  Importance : ℚ
  LastSeenLocation : FVector
  bLastResult : Bool
deriving DecidableEq

/-- The `FAISightQuery(ListenerId, Target)` constructor (header lines 80-83):
age, score and importance start at `0`, the last seen location at the
invalid-location sentinel, and the last result at `false`. -/
def FAISightQuery.init (observerId targetId : Nat) : FAISightQuery :=
  ⟨observerId, targetId, 0, 0, 0, FAISystem.InvalidLocation, false⟩

/-- `FAISightQuery::RecalcScore` (header lines 85-88): `Score = Age + Importance`. -/
def FAISightQuery.RecalcScore (q : FAISightQuery) : FAISightQuery :=
  { q with Score := q.Age + q.Importance }

/-- `FAISightQuery::ForgetPreviousResult` (header lines 90-94). -/
def FAISightQuery.ForgetPreviousResult (q : FAISightQuery) : FAISightQuery :=
  { q with LastSeenLocation := FAISystem.InvalidLocation, bLastResult := false }

/-- `FAISightQuery::FSortPredicate` (header lines 96-106): `A` sorts before
`B` exactly when `A.Score > B.Score`.  No other field is consulted. -/
def FSortPredicate (a b : FAISightQuery) : Bool :=
  decide (b.Score < a.Score)

/-- The "does not need to come later" relation induced by `FSortPredicate`:
`a` may stay before `b` when the predicate does not demand `b` before `a`. -/
def sortRel (a b : FAISightQuery) : Prop :=
  FSortPredicate b a = false

instance : DecidableRel sortRel := fun a b => by
  unfold sortRel; infer_instance

/-- `UAISense_Sight::FDigestedSightProperties` (header lines 115-125). -/
structure FDigestedSightProperties where
  PeripheralVisionAngleCos : ℚ
  SightRadiusSq : ℚ
  AutoSuccessRangeSqFromLastSeenLocation : ℚ
  LoseSightRadiusSq : ℚ
  AffiliationFlags : Nat
deriving DecidableEq

/-- Raw per-observer sight configuration (`UAISenseConfig_Sight`), the input
of the digest computation. -/
structure SightConfigRaw where
  SightRadius : ℚ
  LoseSightRadius : ℚ
  PeripheralVisionAngleCos : ℚ
  AutoSuccessRange : ℚ
  AffiliationFlags : Nat
deriving DecidableEq

/-- Modelled from the spec: the digest build
(`FDigestedSightProperties(SenseConfig)`, body not in the inspected source).
Radii are squared; malformed (negative) radii are clamped to zero at
digest-build time (spec section 7, item b). -/
def buildDigest (c : SightConfigRaw) : FDigestedSightProperties :=
  { PeripheralVisionAngleCos := c.PeripheralVisionAngleCos
    SightRadiusSq := max c.SightRadius 0 ^ 2
    AutoSuccessRangeSqFromLastSeenLocation := max c.AutoSuccessRange 0 ^ 2
    LoseSightRadiusSq := max c.LoseSightRadius 0 ^ 2
    AffiliationFlags := c.AffiliationFlags }

/-- A perception listener (observer), as seen by the registration callbacks:
its id, team, location and raw sight configuration. -/
structure FPerceptionListener where
  id : Nat
  team : Nat
  location : FVector
  config : SightConfigRaw
deriving DecidableEq

/-- The dynamic per-listener data the scheduler reads each tick. -/
structure ListenerState where
  team : Nat
  location : FVector
deriving DecidableEq

/-- External collaborators of the scheduler: the listener registry of the
owning perception framework, the geometric visibility test (`none` models a
failed test), and the per-query wall-clock cost of one evaluation. -/
structure Env where
  listeners : Nat → Option ListenerState
  vis : Nat → Nat → Option Bool
  cost : FAISightQuery → ℚ

/-- Modelled from the spec: the affiliation check.  Bit `0` of the filter
mask accepts same-team (friendly) targets, bit `2` accepts other-team
(hostile) targets. -/
def attitudeBit (observerTeam targetTeam : Nat) : Nat :=
  if observerTeam = targetTeam then 0 else 2

/-- Modelled from the spec: whether an observer's affiliation filter mask
matches a target's team. -/
def affiliationMatch (flags observerTeam targetTeam : Nat) : Bool :=
  flags / 2 ^ attitudeBit observerTeam targetTeam % 2 == 1

/-- Scheduler configuration constants (header lines 134-153). -/
structure SenseConfig where
  MaxTracesPerTick : Nat
  MinQueriesPerTimeSliceCheck : Nat
  MaxTimeSlicePerTick : ℚ
  HighImportanceDistanceSquare : ℚ
  MaxQueryImportance : ℚ
  SightLimitQueryImportance : ℚ
deriving DecidableEq

/-- The sense state: the target registry (`ObservedTargets`), the observer
digest cache (`DigestedProperties`) and the query set (`SightQueryQueue`),
header lines 129-132. -/
structure SightState where
  ObservedTargets : List FAISightTarget
  DigestedProperties : List (Nat × FDigestedSightProperties)
  SightQueryQueue : List FAISightQuery
deriving DecidableEq

/-- The state with no targets, no digests and no queries. -/
def SightState.empty : SightState := ⟨[], [], []⟩

namespace UAISense_Sight

/-- Modelled from the spec: the base term of
`UAISense_Sight::CalcQueryImportance` (body not in the inspected source).
Base importance decreases linearly with squared distance and is raised to
the maximum inside the high-importance distance threshold
(spec section 4.3). -/
def baseImportance (cfg : SenseConfig) (dSq sightRadiusSq : ℚ) : ℚ :=
  if dSq ≤ cfg.HighImportanceDistanceSquare then cfg.MaxQueryImportance
  else if sightRadiusSq ≤ 0 then 0
  else max 0 (min 1 ((sightRadiusSq - dSq) / sightRadiusSq)) * cfg.MaxQueryImportance

/-- Modelled from the spec: the full importance computation — the base term,
the seen-query floor, and the clamp to the configured maximum. -/
def CalcQueryImportance (cfg : SenseConfig) (dSq sightRadiusSq : ℚ)
    (lastSeen : Bool) : ℚ :=
  min
    (if lastSeen
     then max (baseImportance cfg dSq sightRadiusSq) cfg.SightLimitQueryImportance
     else baseImportance cfg dSq sightRadiusSq)
    cfg.MaxQueryImportance

/-- Modelled from the spec: creation of one query at query-generation time.
Age and score start at zero, importance is computed from the current
observer-to-target distance, the last seen location is the invalid-location
sentinel and the last result is "not seen". -/
def mkQueryFor (cfg : SenseConfig) (observerId : Nat) (observerLoc : FVector)
    (d : FDigestedSightProperties) (t : FAISightTarget) : FAISightQuery :=
  { ObserverId := observerId
    TargetId := t.TargetId
    Age := 0
    Score := 0
    Importance :=
      CalcQueryImportance cfg (distSq observerLoc t.GetLocationSimple) d.SightRadiusSq false
    LastSeenLocation := FAISystem.InvalidLocation
    bLastResult := false }

/-- Modelled from the spec: the queries a freshly registered target is paired
with — one per digested observer whose affiliation filter matches the
target's team and who still resolves in the listener registry. -/
def queriesForTarget (cfg : SenseConfig) (env : Env)
    (ds : List (Nat × FDigestedSightProperties)) (t : FAISightTarget) :
    List FAISightQuery :=
  ds.filterMap fun p =>
    match env.listeners p.1 with
    | none => none
    | some li =>
      if affiliationMatch p.2.AffiliationFlags li.team t.TeamId
      then some (mkQueryFor cfg p.1 li.location p.2 t)
      else none

/-- Modelled from the spec: the queries a freshly digested listener is
paired with — one per registered target whose team matches the listener's
affiliation filter. -/
def queriesForListener (cfg : SenseConfig) (l : FPerceptionListener)
    (d : FDigestedSightProperties) (ts : List FAISightTarget) :
    List FAISightQuery :=
  ts.filterMap fun t =>
    if affiliationMatch d.AffiliationFlags l.team t.TeamId
    then some (mkQueryFor cfg l.id l.location d t)
    else none

/-- Modelled from the spec: `UAISense_Sight::GenerateQueriesForListener`
(body not in the inspected source).  Appends one query for every registered
target whose team matches the listener's affiliation filter. -/
def GenerateQueriesForListener (cfg : SenseConfig) (l : FPerceptionListener)
    (d : FDigestedSightProperties) (st : SightState) : SightState :=
  { st with
    SightQueryQueue := st.SightQueryQueue ++ queriesForListener cfg l d st.ObservedTargets }

/-- Modelled from the spec: `UAISense_Sight::OnNewListenerImpl` (body not in
the inspected source).  Computes and caches the digest, then generates the
listener's queries. -/
def OnNewListenerImpl (cfg : SenseConfig) (l : FPerceptionListener)
    (st : SightState) : SightState :=
  let d := buildDigest l.config
  GenerateQueriesForListener cfg l d
    { st with DigestedProperties := st.DigestedProperties ++ [(l.id, d)] }

/-- Modelled from the spec: `UAISense_Sight::RemoveAllQueriesByListener`
(body not in the inspected source).  Removes every query with the given
observer id. -/
def RemoveAllQueriesByListener (observerId : Nat) (st : SightState) : SightState :=
  { st with
    SightQueryQueue := st.SightQueryQueue.filter fun q => q.ObserverId != observerId }

/-- Modelled from the spec: `UAISense_Sight::RemoveAllQueriesToTarget` (body
not in the inspected source).  Removes every query with the given target id. -/
def RemoveAllQueriesToTarget (targetId : Nat) (st : SightState) : SightState :=
  { st with
    SightQueryQueue := st.SightQueryQueue.filter fun q => q.TargetId != targetId }

/-- Modelled from the spec: `UAISense_Sight::OnListenerRemovedImpl` (body not
in the inspected source).  Removes the cached digest and every query
referencing the listener. -/
def OnListenerRemovedImpl (l : FPerceptionListener) (st : SightState) : SightState :=
  RemoveAllQueriesByListener l.id
    { st with
      DigestedProperties := st.DigestedProperties.filter fun p => p.1 != l.id }

/-- The target ids currently present in the target registry. -/
def targetIds (st : SightState) : List Nat :=
  st.ObservedTargets.map FAISightTarget.TargetId

/-- The observer ids currently present in the digest cache. -/
def digestIds (st : SightState) : List Nat :=
  st.DigestedProperties.map Prod.fst

/-- Modelled from the spec: `UAISense_Sight::RegisterTarget` (body not in
the inspected source).  A no-op when the target id is already registered;
otherwise inserts the target and appends one query per matching digested
observer. -/
def RegisterTarget (cfg : SenseConfig) (env : Env) (a : AActor)
    (st : SightState) : SightState :=
  if a.id ∈ targetIds st then st
  else
    { st with
      ObservedTargets := st.ObservedTargets ++ [⟨some a, a.team, a.id⟩]
      SightQueryQueue := st.SightQueryQueue ++
        queriesForTarget cfg env st.DigestedProperties ⟨some a, a.team, a.id⟩ }

/-- Modelled from the spec: `UAISense_Sight::UnregisterSource` (body not in
the inspected source).  Removes the target and every query referencing it. -/
def UnregisterTarget (targetId : Nat) (st : SightState) : SightState :=
  RemoveAllQueriesToTarget targetId
    { st with
      ObservedTargets := st.ObservedTargets.filter fun t => t.TargetId != targetId }

/-- Digest lookup in the cache. -/
def findDigest (st : SightState) (observerId : Nat) : Option FDigestedSightProperties :=
  (st.DigestedProperties.find? fun p => p.1 == observerId).map Prod.snd

/-- Target lookup in the registry. -/
def findTarget (st : SightState) (targetId : Nat) : Option FAISightTarget :=
  st.ObservedTargets.find? fun t => t.TargetId == targetId

/-- Modelled from the spec: the event emission rule (spec section 4.4,
step d).  An event — `GainedSight` on a transition to seen, `LostSight` on a
transition to not seen — is emitted exactly when the new result differs from
the query's last-result flag. -/
def eventsFor (q : FAISightQuery) (newResult : Bool) : List FAISightEvent :=
  if newResult = q.bLastResult then []
  else [FAISightEvent.create q.TargetId q.ObserverId
    (if newResult then ESightPerceptionEventName.GainedSight
     else ESightPerceptionEventName.LostSight)]

/-- Modelled from the spec: evaluation of one popped query against resolved
observer data (spec section 4.4, steps b-e).  Auto-success inside the
auto-success radius with a matching affiliation; otherwise the external
visibility test, whose failure counts as "not seen"; an event is emitted
exactly on a result transition; age resets to zero on an auto-success and
accrues the tick's delta time otherwise; importance and score are
recomputed. -/
def processQueryCore (cfg : SenseConfig) (env : Env) (dt : ℚ)
    (q : FAISightQuery) (d : FDigestedSightProperties) (li : ListenerState)
    (t : FAISightTarget) (a : AActor) : FAISightQuery × List FAISightEvent :=
  let dSq := distSq li.location a.location
  let auto := affiliationMatch d.AffiliationFlags li.team t.TeamId &&
    decide (dSq ≤ d.AutoSuccessRangeSqFromLastSeenLocation)
  let newResult := if auto then true else (env.vis q.ObserverId q.TargetId).getD false
  let q' := FAISightQuery.RecalcScore
    { q with
      bLastResult := newResult
      LastSeenLocation := if newResult = q.bLastResult then q.LastSeenLocation else a.location
      Age := if auto then 0 else q.Age + dt
      Importance := CalcQueryImportance cfg dSq d.SightRadiusSq newResult }
  (q', eventsFor q newResult)

/-- Modelled from the spec: processing of one popped query (spec section 4.4,
step a plus steps b-e).  Returns `none` — the query is silently pruned —
when the observer digest, the listener, the registered target or the
target's weak actor reference no longer resolves. -/
def processQuery (cfg : SenseConfig) (env : Env) (dt : ℚ) (st : SightState)
    (q : FAISightQuery) : Option (FAISightQuery × List FAISightEvent) :=
  match findDigest st q.ObserverId with
  | none => none
  | some d =>
    match env.listeners q.ObserverId with
    | none => none
    | some li =>
      match findTarget st q.TargetId with
      | none => none
      | some t =>
        match t.Target with
        | none => none
        | some a => some (processQueryCore cfg env dt q d li t a)

/-- `UAISense_Sight::SortQueries` (header line 190) sorts the queue with
`FAISightQuery::FSortPredicate`.  The concrete sort algorithm is not part of
the inspected source; it is modelled as a stable insertion sort over the
relation induced by the predicate. -/
def SortQueries (l : List FAISightQuery) : List FAISightQuery :=
  l.insertionSort sortRel

/-- Modelled from the spec: the scheduler loop of `UAISense_Sight::Update`
(spec section 4.4, steps 2-4).  Pops queries from the front of the sorted
queue while fewer than `MaxTracesPerTick` have been popped; the wall-clock
budget is consulted only at every `MinQueriesPerTimeSliceCheck`-th pop.
Returns the new queue (processed queries kept in place, pruned ones dropped,
unreached ones untouched), the emitted events, and the number of pops. -/
def updateLoop (cfg : SenseConfig) (env : Env) (dt : ℚ) (st : SightState) :
    List FAISightQuery → Nat → ℚ → List FAISightQuery × List FAISightEvent × Nat
  | [], n, _ => ([], [], n)
  | q :: rest, n, elapsed =>
    if cfg.MaxTracesPerTick ≤ n then (q :: rest, [], n)
    else if n % cfg.MinQueriesPerTimeSliceCheck == 0 &&
        decide (cfg.MaxTimeSlicePerTick < elapsed) then (q :: rest, [], n)
    else
      match processQuery cfg env dt st q with
      | none =>
        let r := updateLoop cfg env dt st rest (n + 1) (elapsed + env.cost q)
        (r.1, r.2.1, r.2.2)
      | some (q', evs) =>
        let r := updateLoop cfg env dt st rest (n + 1) (elapsed + env.cost q)
        (q' :: r.1, evs ++ r.2.1, r.2.2)

/-- Modelled from the spec: `UAISense_Sight::Update` (body not in the
inspected source).  Sorts the queue by descending score, runs the budgeted
loop, and returns the new state, the emitted events and the number of
processed queries. -/
def Update (cfg : SenseConfig) (env : Env) (dt : ℚ) (st : SightState) :
    SightState × List FAISightEvent × Nat :=
  let r := updateLoop cfg env dt st (SortQueries st.SightQueryQueue) 0 0
  ({ st with SightQueryQueue := r.1 }, r.2.1, r.2.2)

/-- The identity of a query: its (observer id, target id) pair. -/
def queryKey (q : FAISightQuery) : Nat × Nat := (q.ObserverId, q.TargetId)

/-- At most one query per (observer, target) pair. -/
def UniqueQueries (st : SightState) : Prop :=
  (st.SightQueryQueue.map queryKey).Nodup

/-- No query references an unregistered observer or target. -/
def NoOrphans (st : SightState) : Prop :=
  ∀ q ∈ st.SightQueryQueue, q.ObserverId ∈ digestIds st ∧ q.TargetId ∈ targetIds st

/-- Well-formedness of the sense state: unique query keys, no orphaned
queries, and duplicate-free registry keys. -/
def WF (st : SightState) : Prop :=
  UniqueQueries st ∧ NoOrphans st ∧ (digestIds st).Nodup ∧ (targetIds st).Nodup

/-- A registered (observer, target) pair whose affiliation filter matches. -/
def PairMatches (env : Env) (st : SightState) (observerId targetId : Nat) : Prop :=
  ∃ d, (observerId, d) ∈ st.DigestedProperties ∧
    ∃ li, env.listeners observerId = some li ∧
      ∃ t, t ∈ st.ObservedTargets ∧ t.TargetId = targetId ∧
        affiliationMatch d.AffiliationFlags li.team t.TeamId = true

/-- Some query for the pair is present in the query set. -/
def QueryFor (st : SightState) (observerId targetId : Nat) : Prop :=
  (observerId, targetId) ∈ st.SightQueryQueue.map queryKey

/-- Steady state: every matching registered pair has a query. -/
def Complete (env : Env) (st : SightState) : Prop :=
  ∀ observerId targetId, PairMatches env st observerId targetId →
    QueryFor st observerId targetId

/-- A query all of whose referenced entities resolve: its digest, its
listener, its registered target and that target's weak actor reference. -/
def Resolvable (env : Env) (st : SightState) (q : FAISightQuery) : Prop :=
  (findDigest st q.ObserverId).isSome = true ∧
  (env.listeners q.ObserverId).isSome = true ∧
  ∃ t, findTarget st q.TargetId = some t ∧ t.Target.isSome = true

/-- Cumulative evaluation cost of the first `k` queries of a list. -/
def cumCost (env : Env) (qs : List FAISightQuery) (k : Nat) : ℚ :=
  ((qs.take k).map env.cost).sum

/-- The pop count at which the next budget check happens, starting from pop
count `n`: `n` itself when `n` is a multiple of the check interval, the next
multiple otherwise. -/
def checkPoint (interval n : Nat) : Nat :=
  if n % interval = 0 then n else n + (interval - n % interval)

end UAISense_Sight

instance : IsTotal FAISightQuery sortRel :=
  ⟨fun a b => by
    by_cases h : a.Score ≤ b.Score
    · exact Or.inr (by simpa [sortRel, FSortPredicate, decide_eq_false_iff_not, not_lt] using h)
    · refine Or.inl ?_
      simp only [sortRel, FSortPredicate, decide_eq_false_iff_not, not_lt]
      exact le_of_not_le h⟩

instance : IsTrans FAISightQuery sortRel :=
  ⟨fun a b c hab hbc => by
    simp only [sortRel, FSortPredicate, decide_eq_false_iff_not, not_lt] at hab hbc ⊢
    exact le_trans hbc hab⟩

open UAISense_Sight in
/-- Concrete scheduler configuration used in the scenario theorems. -/
def cfg0 : SenseConfig :=
  { MaxTracesPerTick := 100
    MinQueriesPerTimeSliceCheck := 10
    MaxTimeSlicePerTick := 1000
    HighImportanceDistanceSquare := 100
    MaxQueryImportance := 60
    SightLimitQueryImportance := 10 }

/-- Concrete observer used in the scenario theorems: team 0 at the origin,
sight radius 100, auto-success radius 50, affiliation mask accepting both
friendly (bit 0) and hostile (bit 2) targets. -/
def l0 : FPerceptionListener :=
  { id := 1, team := 0, location := ⟨0, 0, 0⟩
    config :=
      { SightRadius := 100, LoseSightRadius := 120, PeripheralVisionAngleCos := 0
        AutoSuccessRange := 50, AffiliationFlags := 5 } }

/-- Concrete target actor used in the scenario theorems: hostile team 3,
three units from the observer — well inside the auto-success radius. -/
def actor0 : AActor := { id := 2, team := 3, location := ⟨3, 0, 0⟩ }

/-- Concrete environment used in the scenario theorems: listener 1 resolves,
the visibility test always reports "not seen", every query evaluation costs
one time unit. -/
def env0 : Env :=
  { listeners := fun i => if i = 1 then some ⟨0, ⟨0, 0, 0⟩⟩ else none
    vis := fun _ _ => some false
    cost := fun _ => 1 }

open UAISense_Sight in
/-- Concrete state used in the scenario theorems: observer 1 and target 2
registered, giving a single pending query. -/
def st0 : SightState :=
  RegisterTarget cfg0 env0 actor0 (OnNewListenerImpl cfg0 l0 SightState.empty)

/-- A concrete pending query for the (1, 2) pair. -/
def q10 : FAISightQuery := ⟨1, 2, 0, 0, 0, FAISystem.InvalidLocation, false⟩

/-- The query produced by processing `q10` in the scenario: an auto-success,
so seen, age reset, importance and score at the configured maximum. -/
def qRes : FAISightQuery := ⟨1, 2, 0, 60, 60, ⟨3, 0, 0⟩, true⟩

/-- The sight-gained event of the scenario. -/
def ev0 : FAISightEvent := ⟨0, ESightPerceptionEventName.GainedSight, 2, 1⟩

/-- Two queries with equal scores and different observer ids, in the order
opposite to the (observer id, target id) tie-break the specification claims. -/
def qTieA : FAISightQuery := ⟨2, 0, 0, 5, 0, FVector.ZeroVector, false⟩

/-- The tie partner of `qTieA`, with the smaller observer id. -/
def qTieB : FAISightQuery := ⟨1, 0, 0, 5, 0, FVector.ZeroVector, false⟩

namespace UAISense_Sight

theorem sortRel_iff (a b : FAISightQuery) : sortRel a b ↔ b.Score ≤ a.Score := by
  simp [sortRel, FSortPredicate, decide_eq_false_iff_not, not_lt]

theorem eventsFor_ne_nil (q : FAISightQuery) (nr : Bool) :
    eventsFor q nr ≠ [] ↔ nr ≠ q.bLastResult := by
  by_cases h : nr = q.bLastResult <;> simp [eventsFor, h]

theorem eventsFor_mem (q : FAISightQuery) (nr : Bool) :
    ∀ e ∈ eventsFor q nr,
      e.Age = 0 ∧ e.SeenActor = q.TargetId ∧ e.Observer = q.ObserverId ∧
        e.EventType = (if nr then ESightPerceptionEventName.GainedSight
          else ESightPerceptionEventName.LostSight) := by
  by_cases h : nr = q.bLastResult <;>
    simp [eventsFor, h, FAISightEvent.create]

theorem processQueryCore_fst_bLastResult (cfg : SenseConfig) (env : Env) (dt : ℚ)
    (q : FAISightQuery) (d : FDigestedSightProperties) (li : ListenerState)
    (t : FAISightTarget) (a : AActor) :
    (processQueryCore cfg env dt q d li t a).1.bLastResult =
      (if affiliationMatch d.AffiliationFlags li.team t.TeamId &&
          decide (distSq li.location a.location ≤ d.AutoSuccessRangeSqFromLastSeenLocation)
        then true
        else (env.vis q.ObserverId q.TargetId).getD false) := by
  simp [processQueryCore, FAISightQuery.RecalcScore]

theorem processQueryCore_snd (cfg : SenseConfig) (env : Env) (dt : ℚ)
    (q : FAISightQuery) (d : FDigestedSightProperties) (li : ListenerState)
    (t : FAISightTarget) (a : AActor) :
    (processQueryCore cfg env dt q d li t a).2 =
      eventsFor q ((processQueryCore cfg env dt q d li t a).1.bLastResult) := by
  simp [processQueryCore, FAISightQuery.RecalcScore]

theorem processQueryCore_fst_Importance (cfg : SenseConfig) (env : Env) (dt : ℚ)
    (q : FAISightQuery) (d : FDigestedSightProperties) (li : ListenerState)
    (t : FAISightTarget) (a : AActor) :
    (processQueryCore cfg env dt q d li t a).1.Importance =
      CalcQueryImportance cfg (distSq li.location a.location) d.SightRadiusSq
        ((processQueryCore cfg env dt q d li t a).1.bLastResult) := by
  simp [processQueryCore, FAISightQuery.RecalcScore]

theorem processQueryCore_key (cfg : SenseConfig) (env : Env) (dt : ℚ)
    (q : FAISightQuery) (d : FDigestedSightProperties) (li : ListenerState)
    (t : FAISightTarget) (a : AActor) :
    (processQueryCore cfg env dt q d li t a).1.ObserverId = q.ObserverId ∧
      (processQueryCore cfg env dt q d li t a).1.TargetId = q.TargetId := by
  constructor <;> simp [processQueryCore, FAISightQuery.RecalcScore]

theorem processQuery_eq_some {cfg : SenseConfig} {env : Env} {dt : ℚ}
    {st : SightState} {q : FAISightQuery} {r : FAISightQuery × List FAISightEvent}
    (h : processQuery cfg env dt st q = some r) :
    ∃ d li t a, findDigest st q.ObserverId = some d ∧
      env.listeners q.ObserverId = some li ∧
      findTarget st q.TargetId = some t ∧ t.Target = some a ∧
      r = processQueryCore cfg env dt q d li t a := by
  obtain ⟨d, hd⟩ : ∃ d, findDigest st q.ObserverId = some d := by
    cases hx : findDigest st q.ObserverId
    · simp [processQuery, hx] at h
    · exact ⟨_, rfl⟩
  obtain ⟨li, hl⟩ : ∃ li, env.listeners q.ObserverId = some li := by
    cases hx : env.listeners q.ObserverId
    · simp [processQuery, hd, hx] at h
    · exact ⟨_, rfl⟩
  obtain ⟨t, ht⟩ : ∃ t, findTarget st q.TargetId = some t := by
    cases hx : findTarget st q.TargetId
    · simp [processQuery, hd, hl, hx] at h
    · exact ⟨_, rfl⟩
  obtain ⟨a, ha⟩ : ∃ a, t.Target = some a := by
    cases hx : t.Target
    · simp [processQuery, hd, hl, ht, hx] at h
    · exact ⟨_, rfl⟩
  refine ⟨d, li, t, a, hd, hl, ht, ha, ?_⟩
  simp [processQuery, hd, hl, ht, ha] at h
  exact h.symm

theorem processQuery_key {cfg : SenseConfig} {env : Env} {dt : ℚ}
    {st : SightState} {q : FAISightQuery} {r : FAISightQuery × List FAISightEvent}
    (h : processQuery cfg env dt st q = some r) :
    r.1.ObserverId = q.ObserverId ∧ r.1.TargetId = q.TargetId := by
  obtain ⟨d, li, t, a, _, _, _, _, rfl⟩ := processQuery_eq_some h
  exact processQueryCore_key cfg env dt q d li t a

end UAISense_Sight

/-- A `filterMap` whose hits are forced by `g` is a sublist of the `map`. -/
theorem filterMap_sublist_map {α β : Type _} (f : α → Option β) (g : α → β)
    (hf : ∀ a b, f a = some b → b = g a) :
    ∀ l : List α, List.Sublist (l.filterMap f) (l.map g) := by
  intro l
  induction l with
  | nil => simp
  | cons a l ih =>
    cases hfa : f a with
    | none =>
      rw [List.filterMap_cons_none hfa, List.map_cons]
      exact ih.cons (g a)
    | some b =>
      rw [List.filterMap_cons_some hfa, List.map_cons, hf a b hfa]
      exact ih.cons₂ (g a)

namespace UAISense_Sight

theorem mem_queriesForTarget {cfg : SenseConfig} {env : Env}
    {ds : List (Nat × FDigestedSightProperties)} {t : FAISightTarget}
    {q : FAISightQuery} (h : q ∈ queriesForTarget cfg env ds t) :
    q.TargetId = t.TargetId ∧ q.ObserverId ∈ ds.map Prod.fst := by
  rw [queriesForTarget, List.mem_filterMap] at h
  obtain ⟨p, hp, hf⟩ := h
  cases hl : env.listeners p.1 with
  | none => rw [hl] at hf; simp at hf
  | some li =>
    rw [hl] at hf
    dsimp only at hf
    by_cases hm : affiliationMatch p.2.AffiliationFlags li.team t.TeamId = true
    · rw [if_pos hm] at hf
      cases hf
      exact ⟨rfl, List.mem_map.2 ⟨p, hp, rfl⟩⟩
    · rw [if_neg hm] at hf; cases hf

theorem mem_queriesForTarget_of {cfg : SenseConfig} {env : Env}
    {ds : List (Nat × FDigestedSightProperties)} {t : FAISightTarget}
    {lid : Nat} {d : FDigestedSightProperties} {li : ListenerState}
    (hp : (lid, d) ∈ ds) (hl : env.listeners lid = some li)
    (hm : affiliationMatch d.AffiliationFlags li.team t.TeamId = true) :
    mkQueryFor cfg lid li.location d t ∈ queriesForTarget cfg env ds t := by
  rw [queriesForTarget, List.mem_filterMap]
  exact ⟨(lid, d), hp, by simp [hl, hm]⟩

theorem keys_queriesForTarget (cfg : SenseConfig) (env : Env)
    (ds : List (Nat × FDigestedSightProperties)) (t : FAISightTarget) :
    List.Sublist ((queriesForTarget cfg env ds t).map queryKey)
      (ds.map fun p => (p.1, t.TargetId)) := by
  rw [queriesForTarget, List.map_filterMap]
  apply filterMap_sublist_map
  intro p k hk
  cases hl : env.listeners p.1 with
  | none => rw [hl] at hk; simp at hk
  | some li =>
    rw [hl] at hk
    dsimp only at hk
    by_cases hm : affiliationMatch p.2.AffiliationFlags li.team t.TeamId = true
    · rw [if_pos hm] at hk
      simp only [Option.map_some'] at hk
      cases hk
      simp [mkQueryFor, queryKey]
    · rw [if_neg hm] at hk; simp at hk

theorem mem_queriesForListener {cfg : SenseConfig} {l : FPerceptionListener}
    {d : FDigestedSightProperties} {ts : List FAISightTarget}
    {q : FAISightQuery} (h : q ∈ queriesForListener cfg l d ts) :
    q.ObserverId = l.id ∧ q.TargetId ∈ ts.map FAISightTarget.TargetId := by
  rw [queriesForListener, List.mem_filterMap] at h
  obtain ⟨t, htm, hf⟩ := h
  by_cases hm : affiliationMatch d.AffiliationFlags l.team t.TeamId = true
  · rw [if_pos hm] at hf
    cases hf
    exact ⟨rfl, List.mem_map.2 ⟨t, htm, rfl⟩⟩
  · rw [if_neg hm] at hf; cases hf

theorem mem_queriesForListener_of {cfg : SenseConfig} {l : FPerceptionListener}
    {d : FDigestedSightProperties} {ts : List FAISightTarget}
    {t : FAISightTarget} (htm : t ∈ ts)
    (hm : affiliationMatch d.AffiliationFlags l.team t.TeamId = true) :
    mkQueryFor cfg l.id l.location d t ∈ queriesForListener cfg l d ts := by
  rw [queriesForListener, List.mem_filterMap]
  exact ⟨t, htm, by simp [hm]⟩

theorem keys_queriesForListener (cfg : SenseConfig) (l : FPerceptionListener)
    (d : FDigestedSightProperties) (ts : List FAISightTarget) :
    List.Sublist ((queriesForListener cfg l d ts).map queryKey)
      (ts.map fun t => (l.id, t.TargetId)) := by
  rw [queriesForListener, List.map_filterMap]
  apply filterMap_sublist_map
  intro t k hk
  by_cases hm : affiliationMatch d.AffiliationFlags l.team t.TeamId = true
  · rw [if_pos hm] at hk
    cases hk
    simp [mkQueryFor, queryKey]
  · rw [if_neg hm] at hk; cases hk

end UAISense_Sight

namespace UAISense_Sight

theorem nodup_pair_right {ds : List (Nat × FDigestedSightProperties)} (tid : Nat)
    (h : (ds.map Prod.fst).Nodup) : (ds.map fun p => (p.1, tid)).Nodup := by
  have he : (ds.map Prod.fst).map (fun x => (x, tid)) = ds.map fun p => (p.1, tid) := by
    simp [List.map_map, Function.comp]
  rw [← he]
  exact h.map fun x y hxy => by simpa using congrArg Prod.fst hxy

theorem nodup_pair_left {ts : List FAISightTarget} (lid : Nat)
    (h : (ts.map FAISightTarget.TargetId).Nodup) :
    (ts.map fun t => (lid, t.TargetId)).Nodup := by
  have he : (ts.map FAISightTarget.TargetId).map (fun x => (lid, x)) =
      ts.map fun t => (lid, t.TargetId) := by
    simp [List.map_map, Function.comp]
  rw [← he]
  exact h.map fun x y hxy => by simpa using congrArg Prod.snd hxy

theorem wf_RegisterTarget (cfg : SenseConfig) (env : Env) (a : AActor)
    (st : SightState) (h : WF st) : WF (RegisterTarget cfg env a st) := by
  obtain ⟨hu, ho, hdn, htn⟩ := h
  by_cases hmem : a.id ∈ targetIds st
  · rw [RegisterTarget, if_pos hmem]
    exact ⟨hu, ho, hdn, htn⟩
  · rw [RegisterTarget, if_neg hmem]
    refine ⟨?_, ?_, ?_, ?_⟩
    · show ((st.SightQueryQueue ++
        queriesForTarget cfg env st.DigestedProperties ⟨some a, a.team, a.id⟩).map
          queryKey).Nodup
      rw [List.map_append, List.nodup_append]
      refine ⟨hu, ?_, ?_⟩
      · exact (keys_queriesForTarget cfg env st.DigestedProperties _).nodup
          (nodup_pair_right a.id hdn)
      · intro k hk1 hk2
        obtain ⟨q, hq, rfl⟩ := List.mem_map.1 hk1
        have hk2' := (keys_queriesForTarget cfg env st.DigestedProperties
          ⟨some a, a.team, a.id⟩).subset hk2
        obtain ⟨p, _, hpk⟩ := List.mem_map.1 hk2'
        have h2 : q.TargetId = a.id := by
          have := congrArg Prod.snd hpk
          simpa [queryKey] using this.symm
        exact hmem (h2 ▸ (ho q hq).2)
    · intro q hq
      have hts : targetIds { st with
          ObservedTargets := st.ObservedTargets ++ [⟨some a, a.team, a.id⟩]
          SightQueryQueue := st.SightQueryQueue ++
            queriesForTarget cfg env st.DigestedProperties ⟨some a, a.team, a.id⟩ } =
          targetIds st ++ [a.id] := by
        simp [targetIds]
      rcases List.mem_append.1 hq with hq1 | hq2
      · obtain ⟨h1, h2⟩ := ho q hq1
        exact ⟨h1, by rw [hts]; exact List.mem_append_left _ h2⟩
      · obtain ⟨h1, h2⟩ := mem_queriesForTarget hq2
        refine ⟨h2, ?_⟩
        rw [hts]
        refine List.mem_append_right _ ?_
        simp [h1]
    · exact hdn
    · show ((st.ObservedTargets ++ [(⟨some a, a.team, a.id⟩ : FAISightTarget)]).map
        FAISightTarget.TargetId).Nodup
      rw [List.map_append, List.nodup_append]
      refine ⟨htn, List.nodup_singleton _, ?_⟩
      intro x hx1 hx2
      simp only [List.map_cons, List.map_nil, List.mem_singleton] at hx2
      exact hmem (hx2 ▸ hx1)

theorem uq_GenerateQueriesForListener (cfg : SenseConfig) (l : FPerceptionListener)
    (d : FDigestedSightProperties) (st : SightState)
    (hfresh : ∀ q ∈ st.SightQueryQueue, q.ObserverId ≠ l.id)
    (htn : (targetIds st).Nodup) (hu : UniqueQueries st) :
    UniqueQueries (GenerateQueriesForListener cfg l d st) := by
  show ((st.SightQueryQueue ++ queriesForListener cfg l d st.ObservedTargets).map
    queryKey).Nodup
  rw [List.map_append, List.nodup_append]
  refine ⟨hu, (keys_queriesForListener cfg l d st.ObservedTargets).nodup
    (nodup_pair_left l.id htn), ?_⟩
  intro k hk1 hk2
  obtain ⟨q, hq, rfl⟩ := List.mem_map.1 hk1
  have hk2' := (keys_queriesForListener cfg l d st.ObservedTargets).subset hk2
  obtain ⟨t, _, htk⟩ := List.mem_map.1 hk2'
  have : q.ObserverId = l.id := by
    have := congrArg Prod.fst htk
    simpa [queryKey] using this.symm
  exact hfresh q hq this

theorem orphans_GenerateQueriesForListener (cfg : SenseConfig)
    (l : FPerceptionListener) (d : FDigestedSightProperties) (st : SightState)
    (hid : l.id ∈ digestIds st) (ho : NoOrphans st) :
    NoOrphans (GenerateQueriesForListener cfg l d st) := by
  intro q hq
  rcases List.mem_append.1 hq with hq1 | hq2
  · exact ho q hq1
  · obtain ⟨h1, h2⟩ := mem_queriesForListener hq2
    exact ⟨h1 ▸ hid, h2⟩

theorem wf_OnNewListenerImpl (cfg : SenseConfig) (l : FPerceptionListener)
    (st : SightState) (hid : l.id ∉ digestIds st) (h : WF st) :
    WF (OnNewListenerImpl cfg l st) := by
  obtain ⟨hu, ho, hdn, htn⟩ := h
  rw [OnNewListenerImpl]
  have hdn1 : (digestIds { st with DigestedProperties :=
      st.DigestedProperties ++ [(l.id, buildDigest l.config)] }).Nodup := by
    show ((st.DigestedProperties ++ [(l.id, buildDigest l.config)]).map Prod.fst).Nodup
    rw [List.map_append, List.nodup_append]
    refine ⟨hdn, List.nodup_singleton _, ?_⟩
    intro x hx1 hx2
    simp only [List.map_cons, List.map_nil, List.mem_singleton] at hx2
    exact hid (hx2 ▸ hx1)
  refine ⟨?_, ?_, hdn1, htn⟩
  · apply uq_GenerateQueriesForListener
    · intro q hq
      exact fun he => hid (he ▸ (ho q hq).1)
    · exact htn
    · exact hu
  · apply orphans_GenerateQueriesForListener
    · show l.id ∈ (st.DigestedProperties ++ [(l.id, buildDigest l.config)]).map Prod.fst
      simp
    · intro q hq
      obtain ⟨h1, h2⟩ := ho q hq
      have hds : digestIds { st with DigestedProperties :=
          st.DigestedProperties ++ [(l.id, buildDigest l.config)] } =
          digestIds st ++ [l.id] := by
        simp [digestIds]
      exact ⟨by rw [hds]; exact List.mem_append_left _ h1, h2⟩

end UAISense_Sight

namespace UAISense_Sight

theorem updateLoop_keys_sublist (cfg : SenseConfig) (env : Env) (dt : ℚ)
    (st : SightState) :
    ∀ (qs : List FAISightQuery) (n : Nat) (e : ℚ),
      List.Sublist (((updateLoop cfg env dt st qs n e).1).map queryKey)
        (qs.map queryKey) := by
  intro qs
  induction qs with
  | nil => intro n e; simp [updateLoop]
  | cons q rest ih =>
    intro n e
    rw [updateLoop]
    by_cases h1 : cfg.MaxTracesPerTick ≤ n
    · rw [if_pos h1]
    · rw [if_neg h1]
      by_cases h2 : (n % cfg.MinQueriesPerTimeSliceCheck == 0 &&
          decide (cfg.MaxTimeSlicePerTick < e)) = true
      · rw [if_pos h2]
      · rw [if_neg h2]
        cases hpq : processQuery cfg env dt st q with
        | none =>
          dsimp only
          exact (ih (n + 1) (e + env.cost q)).cons _
        | some r =>
          obtain ⟨q', evs⟩ := r
          dsimp only
          rw [List.map_cons, List.map_cons]
          have hk : queryKey q' = queryKey q := by
            have hkk := processQuery_key hpq
            simp only [queryKey]
            rw [hkk.1, hkk.2]
          rw [hk]
          exact (ih (n + 1) (e + env.cost q)).cons₂ _

theorem updateLoop_count (cfg : SenseConfig) (env : Env) (dt : ℚ)
    (st : SightState) :
    ∀ (qs : List FAISightQuery) (n : Nat) (e : ℚ),
      (updateLoop cfg env dt st qs n e).2.2 ≤ max n cfg.MaxTracesPerTick := by
  intro qs
  induction qs with
  | nil => intro n e; simp [updateLoop]
  | cons q rest ih =>
    intro n e
    rw [updateLoop]
    by_cases h1 : cfg.MaxTracesPerTick ≤ n
    · rw [if_pos h1]
      exact le_max_left _ _
    · rw [if_neg h1]
      by_cases h2 : (n % cfg.MinQueriesPerTimeSliceCheck == 0 &&
          decide (cfg.MaxTimeSlicePerTick < e)) = true
      · rw [if_pos h2]
        exact le_max_left _ _
      · rw [if_neg h2]
        have hmax : max (n + 1) cfg.MaxTracesPerTick = max n cfg.MaxTracesPerTick := by
          omega
        cases hpq : processQuery cfg env dt st q with
        | none =>
          dsimp only
          exact le_trans (ih (n + 1) (e + env.cost q)) (le_of_eq hmax)
        | some r =>
          obtain ⟨q', evs⟩ := r
          dsimp only
          exact le_trans (ih (n + 1) (e + env.cost q)) (le_of_eq hmax)

theorem checkPoint_ge (N n : Nat) : n ≤ checkPoint N n := by
  rw [checkPoint]
  split <;> omega

theorem checkPoint_le {N : Nat} (n : Nat) (hN : 0 < N) :
    checkPoint N n ≤ n + (N - 1) := by
  rw [checkPoint]
  by_cases h : n % N = 0
  · rw [if_pos h]; omega
  · rw [if_neg h]
    have := Nat.mod_lt n hN
    omega

theorem checkPoint_succ {N n : Nat} (hN : 0 < N) (h : n % N ≠ 0) :
    checkPoint N (n + 1) = checkPoint N n := by
  have hN1 : N ≠ 1 := fun hx => h (by rw [hx]; exact Nat.mod_one n)
  have hmod : (n + 1) % N = (n % N + 1) % N := by
    conv_lhs => rw [Nat.add_mod]
    have h1 : 1 % N = 1 := Nat.mod_eq_of_lt (by omega)
    rw [h1]
  have hr1 : n % N < N := Nat.mod_lt n hN
  by_cases hrN : n % N + 1 = N
  · have h1 : (n + 1) % N = 0 := by rw [hmod, hrN, Nat.mod_self]
    rw [checkPoint, checkPoint, if_pos h1, if_neg h]
    omega
  · have h1 : (n + 1) % N = n % N + 1 := by
      rw [hmod]
      exact Nat.mod_eq_of_lt (by omega)
    rw [checkPoint, checkPoint, if_neg (by rw [h1]; omega), if_neg h, h1]
    omega

theorem updateLoop_stop (cfg : SenseConfig) (env : Env) (dt : ℚ)
    (st : SightState) (hN : 0 < cfg.MinQueriesPerTimeSliceCheck) :
    ∀ (qs : List FAISightQuery) (n : Nat) (e : ℚ),
      cfg.MaxTimeSlicePerTick < e → (∀ q ∈ qs, 0 ≤ env.cost q) →
      (updateLoop cfg env dt st qs n e).2.2 ≤
        checkPoint cfg.MinQueriesPerTimeSliceCheck n := by
  intro qs
  induction qs with
  | nil =>
    intro n e _ _
    simpa [updateLoop] using checkPoint_ge _ n
  | cons q rest ih =>
    intro n e he hc
    rw [updateLoop]
    by_cases h1 : cfg.MaxTracesPerTick ≤ n
    · rw [if_pos h1]
      exact checkPoint_ge _ n
    · rw [if_neg h1]
      by_cases hmod : n % cfg.MinQueriesPerTimeSliceCheck = 0
      · have h2 : (n % cfg.MinQueriesPerTimeSliceCheck == 0 &&
            decide (cfg.MaxTimeSlicePerTick < e)) = true := by
          simp [hmod, he]
        rw [if_pos h2]
        show n ≤ checkPoint cfg.MinQueriesPerTimeSliceCheck n
        exact checkPoint_ge _ n
      · have h2 : (n % cfg.MinQueriesPerTimeSliceCheck == 0 &&
            decide (cfg.MaxTimeSlicePerTick < e)) = false := by
          simp [hmod]
        rw [if_neg (by simp [h2])]
        have he' : cfg.MaxTimeSlicePerTick < e + env.cost q :=
          lt_of_lt_of_le he (le_add_of_nonneg_right (hc q (List.mem_cons_self q rest)))
        have hc' : ∀ p ∈ rest, 0 ≤ env.cost p := fun p hp => hc p (List.mem_cons_of_mem q hp)
        have hcp := checkPoint_succ hN hmod
        cases hpq : processQuery cfg env dt st q with
        | none =>
          dsimp only
          exact le_trans (ih (n + 1) (e + env.cost q) he' hc') (le_of_eq hcp)
        | some r =>
          obtain ⟨q', evs⟩ := r
          dsimp only
          exact le_trans (ih (n + 1) (e + env.cost q) he' hc') (le_of_eq hcp)

end UAISense_Sight

namespace UAISense_Sight

theorem updateLoop_cum (cfg : SenseConfig) (env : Env) (dt : ℚ)
    (st : SightState) (hN : 0 < cfg.MinQueriesPerTimeSliceCheck) :
    ∀ (qs : List FAISightQuery) (n : Nat) (e : ℚ) (k : Nat),
      (∀ q ∈ qs, 0 ≤ env.cost q) →
      cfg.MaxTimeSlicePerTick < e + cumCost env qs k →
      (updateLoop cfg env dt st qs n e).2.2 ≤
        checkPoint cfg.MinQueriesPerTimeSliceCheck (n + k) := by
  intro qs
  induction qs with
  | nil =>
    intro n e k _ hB
    have : cfg.MaxTimeSlicePerTick < e := by
      simpa [cumCost] using hB
    simpa [updateLoop] using le_trans (Nat.le_add_right n k) (checkPoint_ge _ _)
  | cons q rest ih =>
    intro n e k hc hB
    cases k with
    | zero =>
      have he : cfg.MaxTimeSlicePerTick < e := by
        simpa [cumCost] using hB
      exact le_trans (updateLoop_stop cfg env dt st hN (q :: rest) n e he hc)
        (le_of_eq (by rw [Nat.add_zero]))
    | succ k' =>
      rw [updateLoop]
      by_cases h1 : cfg.MaxTracesPerTick ≤ n
      · rw [if_pos h1]
        exact le_trans (Nat.le_add_right n (k' + 1)) (checkPoint_ge _ _)
      · rw [if_neg h1]
        by_cases h2 : (n % cfg.MinQueriesPerTimeSliceCheck == 0 &&
            decide (cfg.MaxTimeSlicePerTick < e)) = true
        · rw [if_pos h2]
          exact le_trans (Nat.le_add_right n (k' + 1)) (checkPoint_ge _ _)
        · rw [if_neg h2]
          have hc' : ∀ p ∈ rest, 0 ≤ env.cost p :=
            fun p hp => hc p (List.mem_cons_of_mem q hp)
          have hB' : cfg.MaxTimeSlicePerTick < (e + env.cost q) + cumCost env rest k' := by
            have hcc : cumCost env (q :: rest) (k' + 1) = env.cost q + cumCost env rest k' := by
              simp [cumCost]
            rw [hcc] at hB
            linarith
          have harr : n + (k' + 1) = (n + 1) + k' := by omega
          cases hpq : processQuery cfg env dt st q with
          | none =>
            dsimp only
            exact le_trans (ih (n + 1) (e + env.cost q) k' hc' hB') (le_of_eq (by rw [harr]))
          | some r =>
            obtain ⟨q', evs⟩ := r
            dsimp only
            exact le_trans (ih (n + 1) (e + env.cost q) k' hc' hB') (le_of_eq (by rw [harr]))

theorem uq_Update (cfg : SenseConfig) (env : Env) (dt : ℚ) (st : SightState)
    (hu : UniqueQueries st) : UniqueQueries (Update cfg env dt st).1 := by
  have hperm : List.Perm (SortQueries st.SightQueryQueue) st.SightQueryQueue :=
    List.perm_insertionSort sortRel st.SightQueryQueue
  have hsortedkeys : ((SortQueries st.SightQueryQueue).map queryKey).Nodup :=
    ((hperm.map queryKey).nodup_iff).2 hu
  exact (updateLoop_keys_sublist cfg env dt st
    (SortQueries st.SightQueryQueue) 0 0).nodup hsortedkeys

theorem orphans_Update (cfg : SenseConfig) (env : Env) (dt : ℚ) (st : SightState)
    (ho : NoOrphans st) : NoOrphans (Update cfg env dt st).1 := by
  intro q hq
  have hk : queryKey q ∈ ((updateLoop cfg env dt st
      (SortQueries st.SightQueryQueue) 0 0).1).map queryKey :=
    List.mem_map_of_mem queryKey hq
  have hk2 := (updateLoop_keys_sublist cfg env dt st
    (SortQueries st.SightQueryQueue) 0 0).subset hk
  have hk3 : queryKey q ∈ st.SightQueryQueue.map queryKey := by
    have hperm : List.Perm (SortQueries st.SightQueryQueue) st.SightQueryQueue :=
      List.perm_insertionSort sortRel st.SightQueryQueue
    exact (hperm.map queryKey).mem_iff.1 hk2
  obtain ⟨p, hp, hpk⟩ := List.mem_map.1 hk3
  have h1 : p.ObserverId = q.ObserverId := congrArg Prod.fst hpk
  have h2 : p.TargetId = q.TargetId := congrArg Prod.snd hpk
  obtain ⟨ha, hb⟩ := ho p hp
  exact ⟨h1 ▸ ha, h2 ▸ hb⟩

end UAISense_Sight

namespace UAISense_Sight

theorem processQuery_ne_none_of_resolvable {cfg : SenseConfig} {env : Env}
    {dt : ℚ} {st : SightState} {q : FAISightQuery} (h : Resolvable env st q) :
    processQuery cfg env dt st q ≠ none := by
  obtain ⟨h1, h2, t, ht, h4⟩ := h
  obtain ⟨d, hd⟩ := Option.isSome_iff_exists.1 h1
  obtain ⟨li, hl⟩ := Option.isSome_iff_exists.1 h2
  obtain ⟨a, ha⟩ := Option.isSome_iff_exists.1 h4
  simp [processQuery, hd, hl, ht, ha]

theorem updateLoop_keys_eq (cfg : SenseConfig) (env : Env) (dt : ℚ)
    (st : SightState) :
    ∀ (qs : List FAISightQuery) (n : Nat) (e : ℚ),
      (∀ q ∈ qs, processQuery cfg env dt st q ≠ none) →
      ((updateLoop cfg env dt st qs n e).1).map queryKey = qs.map queryKey := by
  intro qs
  induction qs with
  | nil => intro n e _; simp [updateLoop]
  | cons q rest ih =>
    intro n e hall
    rw [updateLoop]
    by_cases h1 : cfg.MaxTracesPerTick ≤ n
    · rw [if_pos h1]
    · rw [if_neg h1]
      by_cases h2 : (n % cfg.MinQueriesPerTimeSliceCheck == 0 &&
          decide (cfg.MaxTimeSlicePerTick < e)) = true
      · rw [if_pos h2]
      · rw [if_neg h2]
        cases hpq : processQuery cfg env dt st q with
        | none => exact absurd hpq (hall q (List.mem_cons_self q rest))
        | some r =>
          obtain ⟨q', evs⟩ := r
          dsimp only
          rw [List.map_cons, List.map_cons]
          have hk : queryKey q' = queryKey q := by
            have hkk := processQuery_key hpq
            simp only [queryKey]
            rw [hkk.1, hkk.2]
          rw [hk, ih (n + 1) (e + env.cost q)
            (fun p hp => hall p (List.mem_cons_of_mem q hp))]

theorem complete_RegisterTarget (cfg : SenseConfig) (env : Env) (a : AActor)
    (st : SightState) (hc : Complete env st) :
    Complete env (RegisterTarget cfg env a st) := by
  by_cases hmem : a.id ∈ targetIds st
  · rw [RegisterTarget, if_pos hmem]
    exact hc
  · rw [RegisterTarget, if_neg hmem]
    intro lid tid hpm
    obtain ⟨d, hd, li, hl, t, htm, htid, hm⟩ := hpm
    rcases List.mem_append.1 htm with htm1 | htm2
    · have hold : QueryFor st lid tid := hc lid tid ⟨d, hd, li, hl, t, htm1, htid, hm⟩
      show (lid, tid) ∈ (st.SightQueryQueue ++
        queriesForTarget cfg env st.DigestedProperties ⟨some a, a.team, a.id⟩).map queryKey
      rw [List.map_append]
      exact List.mem_append_left _ hold
    · have hteq : t = ⟨some a, a.team, a.id⟩ := by
        simpa using htm2
      have hq := @mem_queriesForTarget_of cfg env st.DigestedProperties
        ⟨some a, a.team, a.id⟩ lid d li hd hl (by rw [← hteq]; exact hm)
      show (lid, tid) ∈ (st.SightQueryQueue ++
        queriesForTarget cfg env st.DigestedProperties ⟨some a, a.team, a.id⟩).map queryKey
      rw [List.map_append]
      refine List.mem_append_right _ ?_
      refine List.mem_map.2 ⟨_, hq, ?_⟩
      have : tid = a.id := by rw [← htid, hteq]
      simp [queryKey, mkQueryFor, this]

theorem complete_OnNewListenerImpl (cfg : SenseConfig) (env : Env)
    (l : FPerceptionListener) (st : SightState)
    (henv : env.listeners l.id = some ⟨l.team, l.location⟩)
    (hc : Complete env st) : Complete env (OnNewListenerImpl cfg l st) := by
  rw [OnNewListenerImpl]
  intro lid tid hpm
  obtain ⟨d, hd, li, hl, t, htm, htid, hm⟩ := hpm
  rcases List.mem_append.1 hd with hd1 | hd2
  · have hold : QueryFor st lid tid := hc lid tid ⟨d, hd1, li, hl, t, htm, htid, hm⟩
    show (lid, tid) ∈ (st.SightQueryQueue ++
      queriesForListener cfg l (buildDigest l.config) st.ObservedTargets).map queryKey
    rw [List.map_append]
    exact List.mem_append_left _ hold
  · have hpair : (lid, d) = (l.id, buildDigest l.config) := by
      simpa using hd2
    have hlid : lid = l.id := congrArg Prod.fst hpair
    have hdd : d = buildDigest l.config := congrArg Prod.snd hpair
    have hli : li = ⟨l.team, l.location⟩ := by
      rw [hlid] at hl
      rw [henv] at hl
      exact (Option.some.inj hl).symm
    have hm' : affiliationMatch (buildDigest l.config).AffiliationFlags l.team t.TeamId = true := by
      rw [← hdd]
      have : li.team = l.team := by rw [hli]
      rw [← this]
      exact hm
    have hq := @mem_queriesForListener_of cfg l (buildDigest l.config)
      st.ObservedTargets t htm hm'
    show (lid, tid) ∈ (st.SightQueryQueue ++
      queriesForListener cfg l (buildDigest l.config) st.ObservedTargets).map queryKey
    rw [List.map_append]
    refine List.mem_append_right _ ?_
    refine List.mem_map.2 ⟨_, hq, ?_⟩
    simp [queryKey, mkQueryFor, hlid, htid]

theorem complete_Update (cfg : SenseConfig) (env : Env) (dt : ℚ) (st : SightState)
    (hres : ∀ q ∈ st.SightQueryQueue, Resolvable env st q)
    (hc : Complete env st) : Complete env (Update cfg env dt st).1 := by
  intro lid tid hpm
  have hpm' : PairMatches env st lid tid := hpm
  have hold : QueryFor st lid tid := hc lid tid hpm'
  show (lid, tid) ∈ ((updateLoop cfg env dt st
    (SortQueries st.SightQueryQueue) 0 0).1).map queryKey
  rw [updateLoop_keys_eq cfg env dt st (SortQueries st.SightQueryQueue) 0 0
    (fun q hq => processQuery_ne_none_of_resolvable
      (hres q ((List.perm_insertionSort sortRel st.SightQueryQueue).subset hq)))]
  have hperm : List.Perm (SortQueries st.SightQueryQueue) st.SightQueryQueue :=
    List.perm_insertionSort sortRel st.SightQueryQueue
  exact (hperm.map queryKey).mem_iff.2 hold

end UAISense_Sight

open UAISense_Sight

/-- C2: after `RecalcScore` the score equals age plus importance; the score
is strictly increasing in age (importance fixed) and in importance (age
fixed), and in particular monotonically non-decreasing in age. -/
theorem c2_score_age_plus_importance (q : FAISightQuery) :
    (q.RecalcScore).Score = q.Age + q.Importance ∧
    (∀ a1 a2 : ℚ, a1 < a2 →
      ({ q with Age := a1 }).RecalcScore.Score < ({ q with Age := a2 }).RecalcScore.Score) ∧
    (∀ i1 i2 : ℚ, i1 < i2 →
      ({ q with Importance := i1 }).RecalcScore.Score <
        ({ q with Importance := i2 }).RecalcScore.Score) ∧
    (∀ a1 a2 : ℚ, a1 ≤ a2 →
      ({ q with Age := a1 }).RecalcScore.Score ≤ ({ q with Age := a2 }).RecalcScore.Score) := by
  refine ⟨rfl, ?_, ?_, ?_⟩
  · intro a1 a2 h
    simp only [FAISightQuery.RecalcScore]
    exact add_lt_add_right h q.Importance
  · intro i1 i2 h
    simp only [FAISightQuery.RecalcScore]
    exact add_lt_add_left h q.Age
  · intro a1 a2 h
    simp only [FAISightQuery.RecalcScore]
    exact add_le_add_right h q.Importance

/-- C2 witness: the strict age monotonicity at the query (1, 2) with ages 0
and 1. -/
theorem c2_witness :
    ({ FAISightQuery.init 1 2 with Age := (0 : ℚ) }).RecalcScore.Score <
      ({ FAISightQuery.init 1 2 with Age := (1 : ℚ) }).RecalcScore.Score :=
  (c2_score_age_plus_importance (FAISightQuery.init 1 2)).2.1 0 1 (by norm_num)

/-- C6 counterexample: `FSortPredicate` consults only the scores, so on two
queries with equal scores it holds in neither direction, and sorting a
tied pair does not reorder it by observer id: the query with the larger
observer id stays first. -/
theorem c6_counterexample :
    qTieA.Score = qTieB.Score ∧ qTieB.ObserverId < qTieA.ObserverId ∧
    FSortPredicate qTieA qTieB = false ∧ FSortPredicate qTieB qTieA = false ∧
    SortQueries [qTieA, qTieB] = [qTieA, qTieB] ∧
    SortQueries [qTieA, qTieB] ≠ [qTieB, qTieA] := by
  refine ⟨?_, ?_, ?_, ?_, ?_, ?_⟩
  · rfl
  · norm_num [qTieA, qTieB]
  · norm_num [FSortPredicate, qTieA, qTieB]
  · norm_num [FSortPredicate, qTieA, qTieB]
  · norm_num [SortQueries, List.insertionSort, List.orderedInsert, sortRel,
      FSortPredicate, qTieA, qTieB]
  · norm_num [SortQueries, List.insertionSort, List.orderedInsert, sortRel,
      FSortPredicate, qTieA, qTieB]

/-- C6 amended: `SortQueries` sorts by non-increasing score (the order
induced by `FSortPredicate`), permutes the input, and is idempotent — so
repeated sorts of an unchanged set agree — but exact-score ties are left in
their existing relative order; the comparator carries no secondary
(observer id, target id) key. -/
theorem c6_sort_descending_amended (l : List FAISightQuery) :
    List.Sorted sortRel (SortQueries l) ∧
    List.Perm (SortQueries l) l ∧
    SortQueries (SortQueries l) = SortQueries l ∧
    (∀ a b : FAISightQuery, sortRel a b ↔ b.Score ≤ a.Score) := by
  refine ⟨List.sorted_insertionSort sortRel l, List.perm_insertionSort sortRel l, ?_,
    sortRel_iff⟩
  exact List.Sorted.insertionSort_eq (List.sorted_insertionSort sortRel l)

/-- C8: whenever the importance of a query whose last result is "seen" is
recomputed — in isolation or inside query processing — the result is at
least the configured `SightLimitQueryImportance` floor, while every computed
importance is clamped to `MaxQueryImportance` (assuming the configured floor
does not exceed the configured maximum). -/
theorem c8_seen_importance_floor (cfg : SenseConfig)
    (hcfg : cfg.SightLimitQueryImportance ≤ cfg.MaxQueryImportance) :
    (∀ dSq rSq : ℚ, cfg.SightLimitQueryImportance ≤ CalcQueryImportance cfg dSq rSq true) ∧
    (∀ (dSq rSq : ℚ) (seen : Bool), CalcQueryImportance cfg dSq rSq seen ≤ cfg.MaxQueryImportance) ∧
    (∀ (env : Env) (dt : ℚ) (st : SightState) (q : FAISightQuery)
        (r : FAISightQuery × List FAISightEvent),
      processQuery cfg env dt st q = some r → r.1.bLastResult = true →
      cfg.SightLimitQueryImportance ≤ r.1.Importance) := by
  refine ⟨?_, ?_, ?_⟩
  · intro dSq rSq
    rw [CalcQueryImportance, if_pos rfl]
    exact le_min (le_max_right _ _) hcfg
  · intro dSq rSq seen
    exact min_le_right _ _
  · intro env dt st q r hpq hseen
    obtain ⟨d, li, t, a, _, _, _, _, rfl⟩ := processQuery_eq_some hpq
    rw [processQueryCore_fst_Importance cfg env dt q d li t a]
    have hb := processQueryCore_fst_bLastResult cfg env dt q d li t a
    rw [hseen]
    rw [CalcQueryImportance, if_pos rfl]
    exact le_min (le_max_right _ _) hcfg

/-- C8 witness: with the scenario configuration, a seen query at squared
distance 0 and squared radius 1 receives at least the floor of 10. -/
theorem c8_witness :
    cfg0.SightLimitQueryImportance ≤ CalcQueryImportance cfg0 0 1 true :=
  (c8_seen_importance_floor cfg0 (by norm_num [cfg0])).1 0 1

/-- C10: when the weak target reference is dead `GetLocationSimple` returns
the zero vector — not the invalid-location sentinel queries use — so a
vanished target is indistinguishable from a live target standing at the
world origin; only a live reference yields the actor's actual location. -/
theorem c10_vanished_target_zero_vector (t : FAISightTarget) :
    (t.Target = none → t.GetLocationSimple = FVector.ZeroVector) ∧
    (∀ a : AActor, t.Target = some a → t.GetLocationSimple = a.location) ∧
    FVector.ZeroVector ≠ FAISystem.InvalidLocation ∧
    (∃ vanished alive : FAISightTarget, vanished.Target = none ∧ alive.Target ≠ none ∧
      vanished.GetLocationSimple = alive.GetLocationSimple) := by
  refine ⟨?_, ?_, ?_, ?_⟩
  · intro h
    rw [FAISightTarget.GetLocationSimple, h]
  · intro a h
    rw [FAISightTarget.GetLocationSimple, h]
  · intro h
    have hx := congrArg FVector.x h
    norm_num [FVector.ZeroVector, FAISystem.InvalidLocation, fltMax] at hx
  · refine ⟨⟨none, 0, 0⟩, ⟨some ⟨9, 0, FVector.ZeroVector⟩, 0, 1⟩, rfl, by simp, rfl⟩

/-- C10 witness: a concrete dead-reference target resolves to the zero
vector. -/
theorem c10_witness :
    FAISightTarget.GetLocationSimple ⟨none, 0, 7⟩ = FVector.ZeroVector :=
  (c10_vanished_target_zero_vector ⟨none, 0, 7⟩).1 rfl

/-- C7: registering a listener and immediately unregistering it restores the
exact previous state — digest cache, query set and target registry — provided
the listener id was not already digested and no query referenced it. -/
theorem c7_register_unregister_roundtrip (cfg : SenseConfig)
    (l : FPerceptionListener) (st : SightState)
    (h1 : l.id ∉ digestIds st)
    (h2 : ∀ q ∈ st.SightQueryQueue, q.ObserverId ≠ l.id) :
    OnListenerRemovedImpl l (OnNewListenerImpl cfg l st) = st := by
  obtain ⟨ts, ds, qs⟩ := st
  rw [OnNewListenerImpl, GenerateQueriesForListener, OnListenerRemovedImpl,
    RemoveAllQueriesByListener]
  simp only [SightState.mk.injEq]
  refine ⟨trivial, ?_, ?_⟩
  · rw [List.filter_append]
    have hds : ds.filter (fun p => p.1 != l.id) = ds := by
      apply List.filter_eq_self.2
      intro p hp
      have : p.1 ≠ l.id := by
        intro he
        exact h1 (by simpa [digestIds] using List.mem_map.2 ⟨p, hp, he⟩)
      simpa using this
    have hone : List.filter (fun p => p.1 != l.id) [(l.id, buildDigest l.config)] = [] := by
      simp
    rw [hds, hone, List.append_nil]
  · rw [List.filter_append]
    have hqs : qs.filter (fun q => q.ObserverId != l.id) = qs := by
      apply List.filter_eq_self.2
      intro q hq
      simpa using h2 q hq
    have hgen : (queriesForListener cfg l (buildDigest l.config) ts).filter
        (fun q => q.ObserverId != l.id) = [] := by
      apply List.filter_eq_nil_iff.2
      intro q hq
      have := (mem_queriesForListener hq).1
      simp [this]
    rw [hqs, hgen, List.append_nil]

/-- C7 witness: the round trip at the empty state with the scenario
listener. -/
theorem c7_witness :
    OnListenerRemovedImpl l0 (OnNewListenerImpl cfg0 l0 SightState.empty) =
      SightState.empty :=
  c7_register_unregister_roundtrip cfg0 l0 SightState.empty
    (by simp [digestIds, SightState.empty])
    (by simp [SightState.empty])

namespace UAISense_Sight

theorem orphans_OnListenerRemovedImpl (l : FPerceptionListener) (st : SightState)
    (ho : NoOrphans st) : NoOrphans (OnListenerRemovedImpl l st) := by
  intro q hq
  obtain ⟨hq1, hq2⟩ := List.mem_filter.1 hq
  obtain ⟨h1, h2⟩ := ho q hq1
  have hne : q.ObserverId ≠ l.id := by simpa using hq2
  refine ⟨?_, h2⟩
  obtain ⟨p, hp, hpe⟩ := List.mem_map.1 h1
  refine List.mem_map.2 ⟨p, List.mem_filter.2 ⟨hp, ?_⟩, hpe⟩
  simpa [hpe] using hne

theorem orphans_UnregisterTarget (tid : Nat) (st : SightState)
    (ho : NoOrphans st) : NoOrphans (UnregisterTarget tid st) := by
  intro q hq
  obtain ⟨hq1, hq2⟩ := List.mem_filter.1 hq
  obtain ⟨h1, h2⟩ := ho q hq1
  have hne : q.TargetId ≠ tid := by simpa using hq2
  refine ⟨h1, ?_⟩
  obtain ⟨t, htm, hte⟩ := List.mem_map.1 h2
  refine List.mem_map.2 ⟨t, List.mem_filter.2 ⟨htm, ?_⟩, hte⟩
  simpa [hte] using hne

end UAISense_Sight

/-- C4: one `Update` call pops at most `MaxTracesPerTick` queries, and since
the wall-clock budget is consulted only at every
`MinQueriesPerTimeSliceCheck`-th pop, once the cumulative per-query cost of
the first `k` pops exceeds `MaxTimeSlicePerTick` at most
`MinQueriesPerTimeSliceCheck − 1` further queries are evaluated. -/
theorem c4_tick_budget (cfg : SenseConfig) (env : Env) (dt : ℚ) (st : SightState)
    (hN : 1 ≤ cfg.MinQueriesPerTimeSliceCheck)
    (hc : ∀ q : FAISightQuery, 0 ≤ env.cost q) :
    (Update cfg env dt st).2.2 ≤ cfg.MaxTracesPerTick ∧
    ∀ k : Nat,
      cfg.MaxTimeSlicePerTick < cumCost env (SortQueries st.SightQueryQueue) k →
      (Update cfg env dt st).2.2 ≤ k + (cfg.MinQueriesPerTimeSliceCheck - 1) := by
  constructor
  · have h := updateLoop_count cfg env dt st (SortQueries st.SightQueryQueue) 0 0
    have h2 : max 0 cfg.MaxTracesPerTick = cfg.MaxTracesPerTick := by omega
    exact le_trans h (le_of_eq h2)
  · intro k hk
    have h := updateLoop_cum cfg env dt st (by omega)
      (SortQueries st.SightQueryQueue) 0 0 k (fun q _ => hc q)
      (by simpa using hk)
    rw [Nat.zero_add] at h
    exact le_trans h (checkPoint_le k (by omega))

/-- C4 witness: the pop count of the scenario tick is within the configured
maximum of 100. -/
theorem c4_witness : (Update cfg0 env0 1 st0).2.2 ≤ cfg0.MaxTracesPerTick :=
  (c4_tick_budget cfg0 env0 1 st0 (by norm_num [cfg0])
    (fun _ => by norm_num [env0])).1

/-- C9: a query whose digest, listener, registered target or weak actor
reference no longer resolves is silently pruned (`processQuery` returns
`none`) and the loop simply moves on to the remaining queries; a failed
external visibility test yields "not seen" with the query retained; no case
aborts the update. -/
theorem c9_failure_semantics (cfg : SenseConfig) (env : Env) (dt : ℚ)
    (st : SightState) (q : FAISightQuery) (rest : List FAISightQuery)
    (n : Nat) (e : ℚ) :
    (findDigest st q.ObserverId = none → processQuery cfg env dt st q = none) ∧
    (env.listeners q.ObserverId = none → processQuery cfg env dt st q = none) ∧
    (findTarget st q.TargetId = none → processQuery cfg env dt st q = none) ∧
    (∀ t, findTarget st q.TargetId = some t → t.Target = none →
      processQuery cfg env dt st q = none) ∧
    (∀ d li t a, findDigest st q.ObserverId = some d →
      env.listeners q.ObserverId = some li →
      findTarget st q.TargetId = some t → t.Target = some a →
      env.vis q.ObserverId q.TargetId = none →
      (affiliationMatch d.AffiliationFlags li.team t.TeamId &&
        decide (distSq li.location a.location ≤
          d.AutoSuccessRangeSqFromLastSeenLocation)) = false →
      ∃ q' evs, processQuery cfg env dt st q = some (q', evs) ∧
        q'.bLastResult = false) ∧
    (¬ cfg.MaxTracesPerTick ≤ n →
      (n % cfg.MinQueriesPerTimeSliceCheck == 0 &&
        decide (cfg.MaxTimeSlicePerTick < e)) = false →
      processQuery cfg env dt st q = none →
      updateLoop cfg env dt st (q :: rest) n e =
        updateLoop cfg env dt st rest (n + 1) (e + env.cost q)) := by
  refine ⟨?_, ?_, ?_, ?_, ?_, ?_⟩
  · intro h
    simp [processQuery, h]
  · intro h
    cases hd : findDigest st q.ObserverId with
    | none => simp [processQuery, hd]
    | some d => simp [processQuery, hd, h]
  · intro h
    cases hd : findDigest st q.ObserverId with
    | none => simp [processQuery, hd]
    | some d =>
      cases hl : env.listeners q.ObserverId with
      | none => simp [processQuery, hd, hl]
      | some li => simp [processQuery, hd, hl, h]
  · intro t ht hta
    cases hd : findDigest st q.ObserverId with
    | none => simp [processQuery, hd]
    | some d =>
      cases hl : env.listeners q.ObserverId with
      | none => simp [processQuery, hd, hl]
      | some li => simp [processQuery, hd, hl, ht, hta]
  · intro d li t a hd hl ht ha hv hauto
    refine ⟨(processQueryCore cfg env dt q d li t a).1,
      (processQueryCore cfg env dt q d li t a).2, by simp [processQuery, hd, hl, ht, ha], ?_⟩
    rw [processQueryCore_fst_bLastResult]
    simp [hauto, hv]
  · intro h1 h2 h3
    rw [updateLoop, if_neg h1, if_neg (by simp [h2]), h3]

/-- C9 witness: with the scenario state, a query naming the unregistered
observer 5 is pruned. -/
theorem c9_witness : processQuery cfg0 env0 1 st0 (FAISightQuery.init 5 6) = none :=
  (c9_failure_semantics cfg0 env0 1 st0 (FAISightQuery.init 5 6) [] 0 0).1
    (by
      norm_num [findDigest, st0, RegisterTarget, OnNewListenerImpl,
        GenerateQueriesForListener, buildDigest, queriesForTarget, queriesForListener,
        mkQueryFor, targetIds, digestIds, SightState.empty, cfg0, l0, actor0, env0,
        FAISightQuery.init, List.find?]
      rfl)

/-- C3: a processed query emits an event exactly when the new seen/not-seen
result differs from its last-result flag; every emitted event has age 0 and
carries the pair's ids with `GainedSight` on a transition to seen and
`LostSight` otherwise; and in the concrete auto-success scenario the first
`Update` emits exactly one `GainedSight` event while a second `Update` with
unchanged positions emits none. -/
theorem c3_transition_events :
    (∀ (cfg : SenseConfig) (env : Env) (dt : ℚ) (st : SightState)
        (q : FAISightQuery) (r : FAISightQuery × List FAISightEvent),
      processQuery cfg env dt st q = some r →
      ((r.2 ≠ [] ↔ r.1.bLastResult ≠ q.bLastResult) ∧
        ∀ e ∈ r.2, e.Age = 0 ∧ e.SeenActor = q.TargetId ∧ e.Observer = q.ObserverId ∧
          e.EventType = (if r.1.bLastResult then ESightPerceptionEventName.GainedSight
            else ESightPerceptionEventName.LostSight))) ∧
    (Update cfg0 env0 1 st0).2.1 = [ev0] ∧
    (Update cfg0 env0 1 (Update cfg0 env0 1 st0).1).2.1 = [] := by
  refine ⟨?_, ?_, ?_⟩
  · intro cfg env dt st q r hpq
    obtain ⟨d, li, t, a, _, _, _, _, rfl⟩ := processQuery_eq_some hpq
    constructor
    · rw [processQueryCore_snd]
      exact eventsFor_ne_nil q _
    · rw [processQueryCore_snd]
      exact eventsFor_mem q _
  · norm_num [Update, updateLoop, SortQueries, processQuery, processQueryCore, findDigest,
      findTarget, st0, RegisterTarget, OnNewListenerImpl, GenerateQueriesForListener,
      buildDigest, queriesForTarget, queriesForListener, mkQueryFor, CalcQueryImportance,
      baseImportance, affiliationMatch, attitudeBit, distSq, targetIds, digestIds,
      SightState.empty, cfg0, l0, actor0, env0, FAISightQuery.RecalcScore,
      FAISightEvent.create, FAISystem.InvalidLocation, FVector.ZeroVector,
      FAISightTarget.GetLocationSimple, List.insertionSort, List.orderedInsert,
      List.filterMap, List.find?, sortRel, FSortPredicate, fltMax,
      eventsFor, ev0]
  · norm_num [Update, updateLoop, SortQueries, processQuery, processQueryCore, findDigest,
      findTarget, st0, RegisterTarget, OnNewListenerImpl, GenerateQueriesForListener,
      buildDigest, queriesForTarget, queriesForListener, mkQueryFor, CalcQueryImportance,
      baseImportance, affiliationMatch, attitudeBit, distSq, targetIds, digestIds,
      SightState.empty, cfg0, l0, actor0, env0, FAISightQuery.RecalcScore,
      FAISightEvent.create, FAISystem.InvalidLocation, FVector.ZeroVector,
      FAISightTarget.GetLocationSimple, List.insertionSort, List.orderedInsert,
      List.filterMap, List.find?, sortRel, FSortPredicate, fltMax, Nat.testBit,
      eventsFor, ev0]

/-- C3 witness: the general transition rule applied to the concrete scenario
query: processing `q10` yields `(qRes, [ev0])`, the event list is non-empty
exactly because the seen flag flipped. -/
theorem c3_witness :
    ((qRes, [ev0]) : FAISightQuery × List FAISightEvent).2 ≠ [] ↔
      qRes.bLastResult ≠ q10.bLastResult := by
  have h := (c3_transition_events.1 cfg0 env0 1 st0 q10 (qRes, [ev0])
    (by
      norm_num [processQuery, processQueryCore, findDigest, findTarget, st0,
        RegisterTarget, OnNewListenerImpl, GenerateQueriesForListener, buildDigest,
        queriesForTarget, queriesForListener, mkQueryFor, CalcQueryImportance,
        baseImportance, affiliationMatch, attitudeBit, distSq, targetIds, digestIds,
        SightState.empty, cfg0, l0, actor0, env0, FAISightQuery.RecalcScore,
        FAISightEvent.create, FAISystem.InvalidLocation, FVector.ZeroVector,
        List.filterMap, List.find?, fltMax, eventsFor, ev0, q10, qRes])).1
  exact h

/-- C1: query-set key uniqueness is preserved by `RegisterTarget` (which
also keeps the state well-formed), by `GenerateQueriesForListener` for a
listener with no pre-existing queries, by `OnNewListenerImpl` for a fresh
listener id, and by `Update`; completeness — a query for every matching
registered pair — is preserved by `RegisterTarget`, `OnNewListenerImpl` and
(all queries resolvable) `Update`; and under uniqueness plus completeness
every matching registered pair has exactly one query in the set. -/
theorem c1_query_set_uniqueness (cfg : SenseConfig) (env : Env) (dt : ℚ)
    (a : AActor) (l : FPerceptionListener) (d : FDigestedSightProperties)
    (st : SightState) :
    (WF st → WF (RegisterTarget cfg env a st)) ∧
    ((∀ q ∈ st.SightQueryQueue, q.ObserverId ≠ l.id) → (targetIds st).Nodup →
      UniqueQueries st → UniqueQueries (GenerateQueriesForListener cfg l d st)) ∧
    (UniqueQueries st → UniqueQueries (Update cfg env dt st).1) ∧
    (l.id ∉ digestIds st → WF st → WF (OnNewListenerImpl cfg l st)) ∧
    (Complete env st → Complete env (RegisterTarget cfg env a st)) ∧
    (env.listeners l.id = some ⟨l.team, l.location⟩ → Complete env st →
      Complete env (OnNewListenerImpl cfg l st)) ∧
    ((∀ q ∈ st.SightQueryQueue, Resolvable env st q) → Complete env st →
      Complete env (Update cfg env dt st).1) ∧
    (UniqueQueries st → Complete env st → ∀ observerId targetId,
      PairMatches env st observerId targetId →
      ∃! q, q ∈ st.SightQueryQueue ∧ queryKey q = (observerId, targetId)) := by
  refine ⟨wf_RegisterTarget cfg env a st,
    uq_GenerateQueriesForListener cfg l d st,
    uq_Update cfg env dt st,
    fun hid h => wf_OnNewListenerImpl cfg l st hid h,
    complete_RegisterTarget cfg env a st,
    complete_OnNewListenerImpl cfg env l st,
    complete_Update cfg env dt st,
    ?_⟩
  intro hu hc observerId targetId hpm
  obtain ⟨q, hq, hqk⟩ := List.mem_map.1 (hc observerId targetId hpm)
  refine ⟨q, ⟨hq, hqk⟩, ?_⟩
  intro p hp
  exact List.inj_on_of_nodup_map hu hp.1 hq (hp.2.trans hqk.symm)

/-- C1 witness: registering the scenario target into the empty state keeps
the state well-formed. -/
theorem c1_witness : WF (RegisterTarget cfg0 env0 actor0 SightState.empty) :=
  (c1_query_set_uniqueness cfg0 env0 1 actor0 l0
      (buildDigest l0.config) SightState.empty).1
    ⟨by simp [UniqueQueries, SightState.empty],
     by intro q hq; simp [SightState.empty] at hq,
     by simp [digestIds, SightState.empty],
     by simp [targetIds, SightState.empty]⟩

/-- C5: unregistering a listener leaves no query with its observer id;
unregistering a target leaves no query with its target id; and the
no-orphan invariant — every query references a digested observer and a
registered target — is preserved by registration, unregistration and
`Update`. -/
theorem c5_no_orphan_queries (cfg : SenseConfig) (env : Env) (dt : ℚ)
    (a : AActor) (l : FPerceptionListener) (tid : Nat) (st : SightState) :
    (∀ q ∈ (OnListenerRemovedImpl l st).SightQueryQueue, q.ObserverId ≠ l.id) ∧
    (∀ q ∈ (UnregisterTarget tid st).SightQueryQueue, q.TargetId ≠ tid) ∧
    (NoOrphans st → NoOrphans (RegisterTarget cfg env a st)) ∧
    (l.id ∉ digestIds st → WF st → NoOrphans (OnNewListenerImpl cfg l st)) ∧
    (NoOrphans st → NoOrphans (OnListenerRemovedImpl l st)) ∧
    (NoOrphans st → NoOrphans (UnregisterTarget tid st)) ∧
    (NoOrphans st → NoOrphans (Update cfg env dt st).1) := by
  refine ⟨?_, ?_, ?_, ?_,
    orphans_OnListenerRemovedImpl l st,
    orphans_UnregisterTarget tid st,
    orphans_Update cfg env dt st⟩
  · intro q hq
    have := (List.mem_filter.1 hq).2
    simpa using this
  · intro q hq
    have := (List.mem_filter.1 hq).2
    simpa using this
  · intro ho
    by_cases hmem : a.id ∈ targetIds st
    · rw [RegisterTarget, if_pos hmem]
      exact ho
    · rw [RegisterTarget, if_neg hmem]
      intro q hq
      have hts : targetIds { st with
          ObservedTargets := st.ObservedTargets ++ [⟨some a, a.team, a.id⟩]
          SightQueryQueue := st.SightQueryQueue ++
            queriesForTarget cfg env st.DigestedProperties ⟨some a, a.team, a.id⟩ } =
          targetIds st ++ [a.id] := by
        simp [targetIds]
      rcases List.mem_append.1 hq with hq1 | hq2
      · obtain ⟨h1, h2⟩ := ho q hq1
        exact ⟨h1, by rw [hts]; exact List.mem_append_left _ h2⟩
      · obtain ⟨h1, h2⟩ := mem_queriesForTarget hq2
        refine ⟨h2, ?_⟩
        rw [hts]
        refine List.mem_append_right _ ?_
        simp [h1]
  · intro hid h
    exact (wf_OnNewListenerImpl cfg l st hid h).2.1

/-- C5 witness: after unregistering target 2 from the scenario state, the
no-orphan invariant holds of the result (the scenario state has a single
query, which is removed together with its target). -/
theorem c5_witness : NoOrphans (UnregisterTarget 2 st0) :=
  (c5_no_orphan_queries cfg0 env0 1 actor0 l0 2 st0).2.2.2.2.2.1
    (by
      intro q hq
      norm_num [st0, RegisterTarget, OnNewListenerImpl, GenerateQueriesForListener,
        buildDigest, queriesForTarget, queriesForListener, mkQueryFor,
        CalcQueryImportance, baseImportance, affiliationMatch, attitudeBit, distSq,
        targetIds, digestIds, SightState.empty, cfg0, l0, actor0, env0,
        FAISystem.InvalidLocation, FVector.ZeroVector, FAISightTarget.GetLocationSimple,
        List.filterMap, fltMax, Nat.testBit] at hq
      subst hq
      norm_num [st0, RegisterTarget, OnNewListenerImpl, GenerateQueriesForListener,
        buildDigest, queriesForTarget, queriesForListener, mkQueryFor,
        CalcQueryImportance, baseImportance, affiliationMatch, attitudeBit, distSq,
        targetIds, digestIds, SightState.empty, cfg0, l0, actor0, env0,
        FAISystem.InvalidLocation, FVector.ZeroVector, FAISightTarget.GetLocationSimple,
        List.filterMap, fltMax, Nat.testBit])
